import Mathlib

/-!
Verification development for the AdVocate agentic ad-generator repository.

The definitions below are a shallow embedding of the Python source:
  - src/agents/AdGen/graph.py    (workflow graph, should_regenerate)
  - src/agents/AdGen/nodes.py    (GraphNodes stage functions, truncate_text)
  - src/agents/AdGen/orchestrator.py (_sanitize_filename, _save_campaign_assets)
  - run_campaign_flow.py         (validators, parse_campaign_ideas, flow tail)

Python strings are modelled as Lean String / List Char; Python dicts whose
key sets are fixed in the source are modelled as structures; fallible code
is modelled with Except.  LLM calls are modelled by an oracle function from
prompt invocations to response text.
-/

namespace AdVocate

/-! ### Python string primitives -/

/-- The characters Python's str.strip() removes (ASCII whitespace). -/
def pyIsSpace (c : Char) : Bool :=
  c == ' ' || c == '\t' || c == '\n' || c == '\r' || c == '\x0b' || c == '\x0c'

/-- Python s.strip(chars): drop leading and trailing characters satisfying p. -/
def pyStripWith (p : Char → Bool) (l : List Char) : List Char :=
  ((l.dropWhile p).reverse.dropWhile p).reverse

/-- Python s.strip() on a char list. -/
def pyStrip (l : List Char) : List Char := pyStripWith pyIsSpace l

/-- Python s.lower() (ASCII). -/
def pyLower (s : String) : String := ⟨s.data.map Char.toLower⟩

/-- Python substring test: sub in s. -/
def listInfix (sub : List Char) : List Char → Bool
  | [] => sub.isEmpty
  | c :: rest => sub.isPrefixOf (c :: rest) || listInfix sub rest

/-- Python sub in s for strings. -/
def strContains (s sub : String) : Bool := listInfix sub.data s.data

/-- Python s.split(c) : split on every occurrence of one character, keeping empties. -/
def pySplitChar (c : Char) : List Char → List (List Char)
  | [] => [[]]
  | x :: xs =>
    let r := pySplitChar c xs
    if x == c then [] :: r
    else
      match r with
      | h :: t => (x :: h) :: t
      | [] => [[x]]

/-- Index of the last occurrence of c in l (Python s.rfind, with none for -1). -/
def rfindIdx : List Char → Char → Option Nat
  | [], _ => none
  | x :: xs, c =>
    match rfindIdx xs c with
    | some i => some (i + 1)
    | none => if x == c then some 0 else none

theorem rfindIdx_none (c : Char) :
    ∀ (l : List Char), rfindIdx l c = none → ∀ j, l.get? j ≠ some c := by
  intro l
  induction l with
  | nil => intro _ j; simp
  | cons x xs ih =>
    intro h j
    simp only [rfindIdx] at h
    cases hxs : rfindIdx xs c with
    | some i => rw [hxs] at h; exact absurd h (by simp)
    | none =>
      rw [hxs] at h
      by_cases hx : x == c
      · simp [hx] at h
      · cases j with
        | zero =>
          simp only [List.get?]
          intro hcon
          exact hx (by simp [Option.some.injEq] at hcon; simp [hcon])
        | succ j => exact ih hxs j

theorem rfindIdx_get (c : Char) :
    ∀ (l : List Char) (i : Nat), rfindIdx l c = some i → l.get? i = some c := by
  intro l
  induction l with
  | nil => intro i h; simp [rfindIdx] at h
  | cons x xs ih =>
    intro i h
    simp only [rfindIdx] at h
    cases hxs : rfindIdx xs c with
    | some k =>
      rw [hxs] at h
      have : i = k + 1 := by simpa using h.symm
      subst this
      simpa using ih k hxs
    | none =>
      rw [hxs] at h
      by_cases hx : x == c
      · simp only [hx, if_true] at h
        have : i = 0 := by simpa using h.symm
        subst this
        simp [show x = c from by simpa using hx]
      · simp [hx] at h

theorem rfindIdx_last (c : Char) :
    ∀ (l : List Char) (i : Nat), rfindIdx l c = some i →
      ∀ j, l.get? j = some c → j ≤ i := by
  intro l
  induction l with
  | nil => intro i h; simp [rfindIdx] at h
  | cons x xs ih =>
    intro i h j hj
    simp only [rfindIdx] at h
    cases hxs : rfindIdx xs c with
    | some k =>
      rw [hxs] at h
      have hik : i = k + 1 := by simpa using h.symm
      subst hik
      cases j with
      | zero => exact Nat.zero_le _
      | succ j =>
        have : xs.get? j = some c := by simpa using hj
        exact Nat.succ_le_succ (ih k hxs j this)
    | none =>
      rw [hxs] at h
      by_cases hx : x == c
      · simp only [hx, if_true] at h
        have hi : i = 0 := by simpa using h.symm
        subst hi
        cases j with
        | zero => exact Nat.le_refl 0
        | succ j =>
          have : xs.get? j = some c := by simpa using hj
          exact absurd this (rfindIdx_none c xs hxs j)
      · simp [hx] at h

/-! ### truncate_text (nodes.py, inner helper of generate_campaign_assets)

    def truncate_text(text, max_length=500):
        if not text or len(text) <= max_length: return text
        truncated = text[:max_length]
        last_period = truncated.rfind('.')
        if last_period > 0: return text[:last_period + 1]
        return truncated
-/

def truncate_text (text : String) (max_length : Nat := 500) : String :=
  if text.data.isEmpty || text.data.length ≤ max_length then text
  else
    let truncated := text.data.take max_length
    match rfindIdx truncated '.' with
    | some lp => if 0 < lp then ⟨text.data.take (lp + 1)⟩ else ⟨truncated⟩
    | none => ⟨truncated⟩

/-- The truncation law exactly as the spec states it, as a decidable predicate:
for text longer than the cap the result has length at most the cap and either
ends at a sentence boundary found within the cap (the result being the prefix
up to and including that period), or is exactly the hard-cut prefix when no
boundary exists within the cap; for text within the cap, the text unchanged. -/
def truncClaimHolds (text : String) (cap : Nat) : Bool :=
  if text.data.length ≤ cap then truncate_text text cap == text
  else
    (truncate_text text cap).data.length ≤ cap &&
    ((List.range cap).any
        (fun i => text.data.get? i == some '.' &&
          truncate_text text cap == ⟨text.data.take (i + 1)⟩) ||
      (!(List.range cap).any (fun i => text.data.get? i == some '.') &&
        truncate_text text cap == ⟨text.data.take cap⟩))

end AdVocate

namespace AdVocate

theorem length_take_of_lt {l : List Char} {n : Nat} (h : n < l.length) :
    (l.take n).length = n := by
  simp [List.length_take, Nat.min_eq_left (Nat.le_of_lt h)]

/-- CX-C4: the truncation law as literally stated fails on the input ".abc" with
cap 2: the code returns the hard-cut ".a" (because the only period is at index
0 and the code requires last_period > 0), which does not end at a sentence
boundary even though a period does occur within the first 2 characters. -/
theorem truncate_claim_counterexample :
    truncClaimHolds ".abc" 2 = false ∧ truncate_text ".abc" 2 = ".a" := by
  constructor
  · decide
  · decide

/-- C4 (amended): for text within its cap, truncate_text is the identity; for
longer text the result has length at most the cap, and either there is a
period at a positive index below the cap, the result being the prefix ending
at the last such period, or no period occurs at a positive index below the
cap and the result is exactly the hard-cut prefix.  (The code's test
last_period > 0 deliberately ignores a period at index 0.) -/
theorem truncate_text_law (text : String) (cap : Nat) :
    (text.data.length ≤ cap → truncate_text text cap = text) ∧
    (cap < text.data.length →
      (truncate_text text cap).data.length ≤ cap ∧
      ((∃ i, 0 < i ∧ i < cap ∧ text.data.get? i = some '.' ∧
          truncate_text text cap = ⟨text.data.take (i + 1)⟩ ∧
          (truncate_text text cap).data.getLast? = some '.') ∨
        ((∀ i, 0 < i → i < cap → text.data.get? i ≠ some '.') ∧
          truncate_text text cap = ⟨text.data.take cap⟩))) := by
  constructor
  · intro h
    have h2 : text.length ≤ cap := h
    simp [truncate_text, h, h2]
  · intro hc
    have hne : text.data ≠ [] := by
      intro h0
      rw [h0] at hc
      exact Nat.not_lt_zero _ (Nat.lt_of_lt_of_le hc (Nat.zero_le _))
    have hemp : text.data.isEmpty = false := by
      cases htd : text.data with
      | nil => exact absurd htd hne
      | cons a l => rfl
    have hnle : ¬ text.data.length ≤ cap := Nat.not_le.mpr hc
    have hnle2 : ¬ text.length ≤ cap := hnle
    have hcap_le : cap ≤ text.data.length := Nat.le_of_lt hc
    have hlen_take : (text.data.take cap).length = cap := length_take_of_lt hc
    cases hfind : rfindIdx (text.data.take cap) '.' with
    | some lp =>
      by_cases hlp : 0 < lp
      · have hres : truncate_text text cap = ⟨text.data.take (lp + 1)⟩ := by
          simp [truncate_text, hemp, hnle, hnle2, hfind, hlp]
        have hget : (text.data.take cap).get? lp = some '.' :=
          rfindIdx_get '.' _ lp hfind
        have hlt : lp < cap := by
          obtain ⟨hbound, _⟩ := List.get?_eq_some.mp hget
          rwa [hlen_take] at hbound
        have hget' : text.data.get? lp = some '.' := by
          rw [← List.get?_take hlt]
          exact hget
        have hsucc_le : lp + 1 ≤ cap := hlt
        have hsucc_lt : lp + 1 ≤ text.data.length := Nat.le_trans hsucc_le hcap_le
        have hlen_res : (text.data.take (lp + 1)).length = lp + 1 := by
          rcases Nat.lt_or_ge (lp + 1) text.data.length with h | h
          · exact length_take_of_lt h
          · have : lp + 1 = text.data.length := Nat.le_antisymm hsucc_lt h
            simp [List.length_take, this]
        constructor
        · rw [hres]
          simpa [hlen_res] using hsucc_le
        · left
          refine ⟨lp, hlp, hlt, hget', hres, ?_⟩
          rw [hres]
          show (text.data.take (lp + 1)).getLast? = some '.'
          rw [List.getLast?_eq_get?, hlen_res, Nat.succ_sub_one,
            List.get?_take (Nat.lt_succ_self lp), hget']
      · have hlp0 : lp = 0 := Nat.eq_zero_of_not_pos hlp
        subst hlp0
        have hres : truncate_text text cap = ⟨text.data.take cap⟩ := by
          simp [truncate_text, hemp, hnle, hnle2, hfind]
        constructor
        · rw [hres]
          show (text.data.take cap).length ≤ cap
          rw [hlen_take]
        · right
          refine ⟨?_, hres⟩
          intro i hi hicap hcon
          have hti : (text.data.take cap).get? i = some '.' := by
            rw [List.get?_take hicap]; exact hcon
          have := rfindIdx_last '.' _ 0 hfind i hti
          exact Nat.not_succ_le_zero _ (Nat.lt_of_lt_of_le hi this)
    | none =>
      have hres : truncate_text text cap = ⟨text.data.take cap⟩ := by
        simp [truncate_text, hemp, hnle, hnle2, hfind]
      constructor
      · rw [hres]
        show (text.data.take cap).length ≤ cap
        rw [hlen_take]
      · right
        refine ⟨?_, hres⟩
        intro i hi hicap hcon
        have hti : (text.data.take cap).get? i = some '.' := by
          rw [List.get?_take hicap]; exact hcon
        exact rfindIdx_none '.' _ hfind i hti

/-- Witness for C4: the amended law applied at concrete inputs. -/
theorem truncate_text_law_witness :
    (truncate_text "one. two. three." 9).data.length ≤ 9 ∧
    truncate_text "hi" 9 = "hi" :=
  ⟨((truncate_text_law "one. two. three." 9).2 (by decide)).1,
   (truncate_text_law "hi" 9).1 (by decide)⟩

/-! ### Data model (types.py and the dicts built in run_campaign_flow.py)

A CampaignIdea as built by parse_campaign_ideas: the four required string
fields, timeline, budget, success metrics, and the prompt_suggestions
sub-dict.  nodes.py additionally reads the key "product_focused" from
prompt_suggestions (never written by the parser), so that key is optional. -/

structure PromptSuggestions where
  product_focused : Option String := none
  brand_focused : Option String := none
  visual_focused : Option String := none
  social_media : Option String := none
deriving DecidableEq, Repr

structure CampaignIdea where
  campaign_name : String
  core_message : String
  visual_theme_description : String
  key_emotional_appeal : String
  campaign_timeline : String := ""
  budget_allocation : String := ""
  success_metrics : List String := []
  prompt_suggestions : PromptSuggestions := {}
deriving DecidableEq, Repr

/-- The strategy_analysis sub-dict of the graph state; the "analysis" key is
written by the analyze_strategy node. -/
structure StrategyState where
  brand_info : String := ""
  target_audience : String := ""
  campaign_goals : String := ""
  analysis : Option String := none
deriving DecidableEq, Repr

/-- The creative_direction sub-dict; the "direction" key is written by the
generate_creative_direction node. -/
structure DirectionState where
  direction : Option String := none
deriving DecidableEq, Repr

/-- One campaign asset dict as built by generate_campaign_assets; the
quality_check key is added later by the quality_check node (asset.get with
default "" is modelled by Option.getD). -/
structure Asset where
  tagline : String
  story : String
  image_prompt : String
  quality_check : Option String := none
deriving DecidableEq, Repr

/-- GraphState (types.py): the shared state of the AdGen workflow graph. -/
structure GraphState where
  strategy_analysis : StrategyState := {}
  creative_direction : DirectionState := {}
  campaign_assets : List Asset := []
  campaign_ideas : List CampaignIdea := []
deriving DecidableEq, Repr

/-! ### LLM oracle

Each apredict_messages call in nodes.py renders one of six prompt templates;
the oracle maps a rendered prompt invocation to the response text. -/

inductive PromptCall where
  | strategy (brand_info target_audience campaign_goals : String)
  | creative (strategy_analysis : String)
  | tagline (core_message visual_theme emotional_appeal : String)
  | storyGen (core_message visual_theme emotional_appeal : String)
  | imageGen (campaign_name product_prompt brand_prompt social_prompt
      summary_prompt : String)
  | quality (tagline story image_prompt : String)
deriving DecidableEq

def Oracle : Type := PromptCall → String

/-! ### Graph nodes (nodes.py, class GraphNodes) -/

/-- analyze_strategy: the dict literal is written as
    state["strategy_analysis"] = ⟨analysis, then **state["strategy_analysis"]⟩,
so an existing "analysis" key of the old dict would override the new one. -/
def analyze_strategy (llm : Oracle) (st : GraphState) : GraphState :=
  let content := llm (.strategy st.strategy_analysis.brand_info
    st.strategy_analysis.target_audience st.strategy_analysis.campaign_goals)
  { st with
    strategy_analysis :=
      { st.strategy_analysis with
        analysis := some (st.strategy_analysis.analysis.getD content) } }

/-- generate_creative_direction; the prompt reads the analysis written by
analyze_strategy (every run writes it before this read; the KeyError of a
missing key is not modelled). -/
def generate_creative_direction (llm : Oracle) (st : GraphState) : GraphState :=
  let content := llm (.creative (st.strategy_analysis.analysis.getD ""))
  { st with
    creative_direction :=
      { direction := some (st.creative_direction.direction.getD content) } }

/-- The per-idea body of the loop in generate_campaign_assets. -/
def mkAsset (llm : Oracle) (idea : CampaignIdea) : Asset :=
  let tagline_response := llm (.tagline idea.core_message
    idea.visual_theme_description idea.key_emotional_appeal)
  let story_response := llm (.storyGen idea.core_message
    idea.visual_theme_description idea.key_emotional_appeal)
  let campaign_name := truncate_text idea.campaign_name 100
  let product_prompt :=
    truncate_text (idea.prompt_suggestions.product_focused.getD "") 400
  let brand_prompt :=
    truncate_text (idea.prompt_suggestions.brand_focused.getD "") 400
  let social_prompt :=
    truncate_text (idea.prompt_suggestions.social_media.getD "") 400
  let summary_prompt :=
    truncate_text (campaign_name ++ ": " ++ idea.core_message) 200
  let image_prompt_response := llm (.imageGen campaign_name product_prompt
    brand_prompt social_prompt summary_prompt)
  { tagline := tagline_response
    story := story_response
    image_prompt := image_prompt_response }

/-- generate_campaign_assets: assets = []; for idea in campaign_ideas:
assets.append(...); state["campaign_assets"] = assets. -/
def generate_campaign_assets (llm : Oracle) (st : GraphState) : GraphState :=
  { st with
    campaign_assets :=
      st.campaign_ideas.foldl (fun acc idea => acc ++ [mkAsset llm idea]) [] }

/-- The per-asset body of the loop in quality_check: a copy of the asset dict
with quality_check overridden by the response. -/
def addQualityCheck (llm : Oracle) (asset : Asset) : Asset :=
  { asset with
    quality_check :=
      some (llm (.quality asset.tagline asset.story asset.image_prompt)) }

/-- quality_check node: checked_assets built by appending in order. -/
def quality_check (llm : Oracle) (st : GraphState) : GraphState :=
  { st with
    campaign_assets :=
      st.campaign_assets.foldl (fun acc a => acc ++ [addQualityCheck llm a]) [] }

/-! ### The workflow graph (graph.py, build_graph) -/

inductive Node where
  | analyze_strategy
  | creative_direction
  | campaign_assets
  | quality_check
deriving DecidableEq, Repr

/-- A transition target: another node, or the langgraph END sentinel. -/
inductive GTarget where
  | next (n : Node)
  | finish
deriving DecidableEq, Repr

/-- The failure marker test used by should_regenerate:
"fail" in quality_check.lower() or "error" in quality_check.lower(). -/
def isFailing (quality_check : String) : Bool :=
  strContains (pyLower quality_check) "fail" ||
    strContains (pyLower quality_check) "error"

/-- should_regenerate (graph.py): returns "campaign_assets" when the assets
list is empty or any asset's verdict carries a failure marker, else "end". -/
def should_regenerate (st : GraphState) : String :=
  if st.campaign_assets.isEmpty then "campaign_assets"
  else if st.campaign_assets.any (fun a => isFailing (a.quality_check.getD ""))
    then "campaign_assets"
  else "end"

/-- The transition function realized by the edges declared in build_graph:
analyze_strategy → creative_direction → campaign_assets → END, plus the
conditional edges mapped from should_regenerate on quality_check_node (which
no edge ever reaches). -/
def codeStep (st : GraphState) : Node → GTarget
  | .analyze_strategy => .next .creative_direction
  | .creative_direction => .next .campaign_assets
  | .campaign_assets => .finish
  | .quality_check =>
    if should_regenerate st == "campaign_assets" then .next .campaign_assets
    else .finish

/-- Modelled from the spec: the reference transition function the claim
states (spec section 4.1): the linear chain analyze_strategy →
creative_direction → campaign_assets → quality_check, with quality_check
looping back to campaign_assets exactly when some asset's verdict carries a
failure marker, else terminating. -/
def specStep (st : GraphState) : Node → GTarget
  | .analyze_strategy => .next .creative_direction
  | .creative_direction => .next .campaign_assets
  | .campaign_assets => .next .quality_check
  | .quality_check =>
    if st.campaign_assets.any (fun a => isFailing (a.quality_check.getD ""))
      then .next .campaign_assets
    else .finish

/-- Dispatch of the node functions registered by workflow.add_node. -/
def runNode (llm : Oracle) : Node → GraphState → GraphState
  | .analyze_strategy => analyze_strategy llm
  | .creative_direction => generate_creative_direction llm
  | .campaign_assets => generate_campaign_assets llm
  | .quality_check => quality_check llm

/-- Execute the compiled graph from a node with the given fuel counting node
executions; some final state on termination within the fuel, none otherwise. -/
def execFrom (llm : Oracle) : Nat → Node → GraphState → Option GraphState
  | 0, _, _ => none
  | fuel + 1, n, st =>
    let st2 := runNode llm n st
    match codeStep st2 n with
    | .finish => some st2
    | .next n2 => execFrom llm fuel n2 st2

/-- The sequence of nodes executed from a start node within the given fuel. -/
def traceFrom (llm : Oracle) : Nat → Node → GraphState → List Node
  | 0, _, _ => []
  | fuel + 1, n, st =>
    let st2 := runNode llm n st
    n :: (match codeStep st2 n with
          | .finish => []
          | .next n2 => traceFrom llm fuel n2 st2)

/-- C1: the compiled graph's step relation does not match the reference
transition function.  build_graph wires campaign_assets_node directly to END
(so quality_check_node is unreachable: no edge enters it), whereas the
reference function sends campaign_assets to quality_check; moreover on an
empty assets list should_regenerate loops back to campaign_assets even
though no asset's verdict carries a failure marker. -/
theorem graph_campaign_assets_edge_divergence :
    (∀ st : GraphState, codeStep st Node.campaign_assets = GTarget.finish) ∧
    specStep {} Node.campaign_assets = GTarget.next Node.quality_check ∧
    codeStep {} Node.quality_check = GTarget.next Node.campaign_assets ∧
    specStep {} Node.quality_check = GTarget.finish := by
  refine ⟨fun st => rfl, rfl, ?_, ?_⟩
  · decide
  · decide

/-- Witness oracle whose every quality verdict carries a failure marker. -/
def alwaysFailOracle : Oracle := fun _ => "FAIL: regenerate these assets"

/-- C7: for every oracle, even one whose quality verdicts always carry a
failure marker, a run of the compiled graph from the entry point terminates
after exactly the three node executions analyze_strategy, creative_direction,
campaign_assets, with campaign_assets executed once (zero regeneration
attempts, within any maximum retry count).  Termination is unconditional
because the edge from campaign_assets_node goes to END. -/
theorem graph_run_terminates_under_always_fail (llm : Oracle) (st : GraphState)
    (hfail : ∀ t s ip, isFailing (llm (PromptCall.quality t s ip)) = true) :
    execFrom llm 3 Node.analyze_strategy st =
      some (generate_campaign_assets llm
        (generate_creative_direction llm (analyze_strategy llm st))) ∧
    traceFrom llm 3 Node.analyze_strategy st =
      [Node.analyze_strategy, Node.creative_direction, Node.campaign_assets] ∧
    (traceFrom llm 3 Node.analyze_strategy st).count Node.campaign_assets = 1 :=
  ⟨rfl, rfl, rfl⟩

/-- Witness for C7: the run at a concrete always-failing oracle. -/
theorem graph_run_terminates_witness :
    execFrom alwaysFailOracle 3 Node.analyze_strategy {} =
      some (generate_campaign_assets alwaysFailOracle
        (generate_creative_direction alwaysFailOracle
          (analyze_strategy alwaysFailOracle {}))) :=
  (graph_run_terminates_under_always_fail alwaysFailOracle {}
    (fun t s ip => rfl)).1

theorem foldl_append_eq_map {α β : Type} (f : α → β) :
    ∀ (l : List α) (acc : List β),
      l.foldl (fun a x => a ++ [f x]) acc = acc ++ l.map f := by
  intro l
  induction l with
  | nil => intro acc; simp
  | cons x xs ih =>
    intro acc
    simp only [List.foldl_cons, List.map_cons, ih]
    simp

/-- C5: generate_campaign_assets stores one asset per campaign idea, in the
same order (position i of the asset list is produced from position i of the
idea list, and the idea list itself is unchanged); quality_check preserves
the length and order of the asset list. -/
theorem campaign_assets_align_with_ideas (llm : Oracle) (st : GraphState) :
    (generate_campaign_assets llm st).campaign_assets.length
        = st.campaign_ideas.length ∧
    (generate_campaign_assets llm st).campaign_ideas = st.campaign_ideas ∧
    (∀ i (h1 : i < (generate_campaign_assets llm st).campaign_assets.length)
        (h2 : i < st.campaign_ideas.length),
      (generate_campaign_assets llm st).campaign_assets.get ⟨i, h1⟩
        = mkAsset llm (st.campaign_ideas.get ⟨i, h2⟩)) ∧
    (quality_check llm st).campaign_assets.length
        = st.campaign_assets.length ∧
    (∀ i (h1 : i < (quality_check llm st).campaign_assets.length)
        (h2 : i < st.campaign_assets.length),
      (quality_check llm st).campaign_assets.get ⟨i, h1⟩
        = addQualityCheck llm (st.campaign_assets.get ⟨i, h2⟩)) := by
  have hg : (generate_campaign_assets llm st).campaign_assets
      = st.campaign_ideas.map (mkAsset llm) := by
    show st.campaign_ideas.foldl _ [] = _
    rw [foldl_append_eq_map]
    simp
  have hq : (quality_check llm st).campaign_assets
      = st.campaign_assets.map (addQualityCheck llm) := by
    show st.campaign_assets.foldl _ [] = _
    rw [foldl_append_eq_map]
    simp
  refine ⟨by rw [hg]; simp, rfl, ?_, by rw [hq]; simp, ?_⟩
  · intro i h1 h2
    have hsome : (generate_campaign_assets llm st).campaign_assets.get? i
        = some (mkAsset llm (st.campaign_ideas.get ⟨i, h2⟩)) := by
      rw [hg, List.get?_map, List.get?_eq_get h2]
      rfl
    rw [List.get?_eq_get h1] at hsome
    exact Option.some.inj hsome
  · intro i h1 h2
    have hsome : (quality_check llm st).campaign_assets.get? i
        = some (addQualityCheck llm (st.campaign_assets.get ⟨i, h2⟩)) := by
      rw [hq, List.get?_map, List.get?_eq_get h2]
      rfl
    rw [List.get?_eq_get h1] at hsome
    exact Option.some.inj hsome

/-- A concrete oracle and state for witnesses. -/
def llmW : Oracle := fun _ => "ok"

def ideaW : CampaignIdea :=
  { campaign_name := "Glow Logic"
    core_message := "Smart light for calm homes"
    visual_theme_description := "Soft dawn gradients"
    key_emotional_appeal := "Calm confidence" }

def assetW : Asset := { tagline := "t", story := "s", image_prompt := "i" }

def stW : GraphState :=
  { campaign_ideas := [ideaW], campaign_assets := [assetW] }

/-- Witness for C5: alignment at a concrete oracle and one-idea state. -/
theorem campaign_assets_align_witness :
    (generate_campaign_assets llmW stW).campaign_assets.get ⟨0, by decide⟩
        = mkAsset llmW ideaW ∧
    (quality_check llmW stW).campaign_assets.get ⟨0, by decide⟩
        = addQualityCheck llmW assetW :=
  ⟨(campaign_assets_align_with_ideas llmW stW).2.2.1 0 (by decide) (by decide),
   (campaign_assets_align_with_ideas llmW stW).2.2.2.2 0 (by decide) (by decide)⟩

/-! ### Properties of pyStripWith, for the sanitizer -/

theorem mem_dropWhile {p : Char → Bool} {a : Char} :
    ∀ {l : List Char}, a ∈ l.dropWhile p → a ∈ l :=
  fun h => (List.dropWhile_sublist _).mem h

theorem mem_pyStripWith {p : Char → Bool} {a : Char} {l : List Char}
    (h : a ∈ pyStripWith p l) : a ∈ l := by
  unfold pyStripWith at h
  rw [List.mem_reverse] at h
  have := mem_dropWhile h
  rw [List.mem_reverse] at this
  exact mem_dropWhile this

theorem head?_dropWhile {p : Char → Bool} :
    ∀ {l : List Char} {a : Char}, (l.dropWhile p).head? = some a → p a = false := by
  intro l
  induction l with
  | nil => intro a h; simp [List.dropWhile] at h
  | cons x xs ih =>
    intro a h
    rw [List.dropWhile_cons] at h
    by_cases hx : p x
    · rw [if_pos hx] at h
      exact ih h
    · rw [if_neg hx] at h
      have : x = a := by simpa using h
      subst this
      exact Bool.eq_false_iff.mpr hx

theorem exists_dropWhile_suffix (p : Char → Bool) :
    ∀ (l : List Char), ∃ t, l = t ++ l.dropWhile p := by
  intro l
  induction l with
  | nil => exact ⟨[], rfl⟩
  | cons x xs ih =>
    rw [List.dropWhile_cons]
    by_cases hx : p x
    · rw [if_pos hx]
      obtain ⟨t, ht⟩ := ih
      exact ⟨x :: t, by simp [← ht]⟩
    · rw [if_neg hx]
      exact ⟨[], rfl⟩

theorem head?_pyStripWith {p : Char → Bool} {a : Char} {l : List Char}
    (h : (pyStripWith p l).head? = some a) : p a = false := by
  unfold pyStripWith at h
  obtain ⟨t, ht⟩ := exists_dropWhile_suffix p (l.dropWhile p).reverse
  have hsplit : l.dropWhile p
      = ((l.dropWhile p).reverse.dropWhile p).reverse ++ t.reverse := by
    have h2 := congrArg List.reverse ht
    rw [List.reverse_reverse, List.reverse_append] at h2
    exact h2
  rcases hr : ((l.dropWhile p).reverse.dropWhile p).reverse with _ | ⟨b, rest⟩
  · rw [hr] at h
    simp at h
  · rw [hr] at h
    have hb : b = a := by simpa using h
    subst hb
    have : (l.dropWhile p).head? = some b := by
      rw [hsplit, hr]
      simp
    exact head?_dropWhile this

theorem getLast?_pyStripWith {p : Char → Bool} {a : Char} {l : List Char}
    (h : (pyStripWith p l).getLast? = some a) : p a = false := by
  unfold pyStripWith at h
  rw [List.getLast?_reverse] at h
  exact head?_dropWhile h

theorem filter_dropWhile_of_disjoint {p q : Char → Bool}
    (hpq : ∀ a, p a = true → q a = false) :
    ∀ (l : List Char), (l.dropWhile p).filter q = l.filter q := by
  intro l
  induction l with
  | nil => rfl
  | cons x xs ih =>
    rw [List.dropWhile_cons]
    by_cases hx : p x
    · rw [if_pos hx, List.filter_cons, hpq x hx]
      simpa using ih
    · rw [if_neg hx]

theorem filter_pyStripWith_of_disjoint {p q : Char → Bool}
    (hpq : ∀ a, p a = true → q a = false) (l : List Char) :
    (pyStripWith p l).filter q = l.filter q := by
  unfold pyStripWith
  rw [List.filter_reverse, filter_dropWhile_of_disjoint hpq,
    List.filter_reverse, List.reverse_reverse, filter_dropWhile_of_disjoint hpq]

/-! ### _sanitize_filename (orchestrator.py)

    sanitized = "".join(c if c.isalnum() else "_" for c in filename)
    return sanitized.strip("_")
-/

/-- Python str.isalnum restricted to ASCII letters and digits. -/
def pyIsAlnum (c : Char) : Bool := c.isAlpha || c.isDigit

def sanitize_filename (filename : String) : String :=
  ⟨pyStripWith (· == '_')
    (filename.data.map (fun c => if pyIsAlnum c then c else '_'))⟩

theorem filter_sanitizeMap (l : List Char) :
    (l.map (fun c => if pyIsAlnum c then c else '_')).filter pyIsAlnum
      = l.filter pyIsAlnum := by
  induction l with
  | nil => rfl
  | cons x xs ih =>
    rw [List.map_cons, List.filter_cons, List.filter_cons]
    by_cases hx : pyIsAlnum x
    · rw [if_pos hx, hx]
      simpa using ih
    · rw [if_neg hx, Bool.eq_false_iff.mpr hx]
      have h2 : pyIsAlnum '_' = false := by decide
      rw [h2]
      simpa using ih

/-- C10: the sanitizer returns only alphanumerics and underscores, with no
leading or trailing underscore; every non-alphanumeric input character is
mapped to an underscore before the edge strip, so the alphanumeric characters
of the input are preserved exactly and in order; and the spec's example input
evaluates as documented. -/
theorem sanitize_filename_law (filename : String) :
    (∀ c ∈ (sanitize_filename filename).data, pyIsAlnum c = true ∨ c = '_') ∧
    (∀ c, (sanitize_filename filename).data.head? = some c → c ≠ '_') ∧
    (∀ c, (sanitize_filename filename).data.getLast? = some c → c ≠ '_') ∧
    (sanitize_filename filename).data.filter pyIsAlnum
        = filename.data.filter pyIsAlnum ∧
    sanitize_filename "Eco/Tech: 2024!" = "Eco_Tech__2024" := by
  refine ⟨?_, ?_, ?_, ?_, by decide⟩
  · intro c hc
    have hmem := mem_pyStripWith hc
    obtain ⟨x, _, hx⟩ := List.mem_map.mp hmem
    by_cases hq : pyIsAlnum x
    · left
      rw [if_pos hq] at hx
      rw [← hx]
      exact hq
    · right
      rw [if_neg hq] at hx
      exact hx.symm
  · intro c hc
    have := head?_pyStripWith hc
    simpa using this
  · intro c hc
    have := getLast?_pyStripWith hc
    simpa using this
  · show (pyStripWith (· == '_') _).filter pyIsAlnum = _
    rw [filter_pyStripWith_of_disjoint, filter_sanitizeMap]
    intro a ha
    have : a = '_' := by simpa using ha
    subst this
    decide

/-- Witness for C10: the law applied at the spec's example input. -/
theorem sanitize_filename_witness :
    ('E' : Char) ≠ '_' ∧
    (sanitize_filename "Eco/Tech: 2024!").data.filter pyIsAlnum
        = "Eco/Tech: 2024!".data.filter pyIsAlnum :=
  ⟨(sanitize_filename_law "Eco/Tech: 2024!").2.1 'E' (by decide),
   (sanitize_filename_law "Eco/Tech: 2024!").2.2.2.1⟩

/-! ### _save_campaign_assets (orchestrator.py)

The image generator lives in src/agents/AdGen/image_gen.py, a module absent
from the source tree (only its import sites exist). -/

/-- Modelled from the spec: the image-generation collaborator of
src/agents/AdGen/image_gen.py (SDXLTurboGenerator.generate_image), absent
from the source tree.  Per the spec's external-interface section it has the
contract generate(prompt, outputDirectory) -> filePath and may fail; failure
is modelled as an Except error, matching the spec's classification of
image-generation collaborator failure as an ExternalCallError. -/
structure ImageGenError where
  msg : String
deriving DecidableEq, Repr

def ImageGen : Type := String → String → Except ImageGenError String

/-- The asset-kind to file-path mapping returned by _save_campaign_assets. -/
structure AssetPaths where
  tagline : String
  story : String
  image : String
  quality_check : Option String
deriving DecidableEq, Repr

/-- Python os.path.join for a directory and a simple file name. -/
def os_path_join (dir name : String) : String := dir ++ "/" ++ name

/-- _save_campaign_assets: writes tagline.txt and story.txt, then calls
image_generator.generate_image with no surrounding try/except, then writes
quality_check.txt only when the asset dict has that key; returns the dict of
paths (file-write side effects are elided, the returned paths kept). -/
def save_campaign_assets (image_generator : ImageGen) (campaign_dir : String)
    (assets : Asset) : Except ImageGenError AssetPaths :=
  let tagline_path := os_path_join campaign_dir "tagline.txt"
  let story_path := os_path_join campaign_dir "story.txt"
  match image_generator assets.image_prompt campaign_dir with
  | .error e => .error e
  | .ok image_path =>
    .ok { tagline := tagline_path
          story := story_path
          image := image_path
          quality_check :=
            match assets.quality_check with
            | some _ => some (os_path_join campaign_dir "quality_check.txt")
            | none => none }

/-- An image generator that always fails. -/
def failingGen : ImageGen := fun _ _ => .error ⟨"CUDA out of memory"⟩

/-- CX-C6: when the image-generation collaborator fails, _save_campaign_assets
does not return a mapping with the image recorded as absent: the failure
propagates (there is no try/except around generate_image) and the run aborts. -/
theorem save_assets_abort_counterexample :
    save_campaign_assets failingGen "Outputs/Glow_Logic_20240101" assetW
      = Except.error ⟨"CUDA out of memory"⟩ := rfl

/-- C6 (amended): an image-generation failure propagates out of
_save_campaign_assets unchanged, aborting the campaign's persistence rather
than being recorded as an absent image; on success the returned mapping
records the collaborator's path for the image, the text-asset paths, and a
null quality_check entry exactly when the asset had no verdict.  No failed
kind is ever represented by a silently produced empty file path. -/
theorem save_campaign_assets_law (gen : ImageGen) (campaign_dir : String)
    (assets : Asset) :
    (∀ e, gen assets.image_prompt campaign_dir = Except.error e →
      save_campaign_assets gen campaign_dir assets = Except.error e) ∧
    (∀ p, gen assets.image_prompt campaign_dir = Except.ok p →
      save_campaign_assets gen campaign_dir assets = Except.ok
        { tagline := os_path_join campaign_dir "tagline.txt"
          story := os_path_join campaign_dir "story.txt"
          image := p
          quality_check := assets.quality_check.map
            (fun _ => os_path_join campaign_dir "quality_check.txt") }) := by
  constructor
  · intro e h
    simp [save_campaign_assets, h]
  · intro p h
    cases hq : assets.quality_check with
    | some v => simp [save_campaign_assets, h, hq]
    | none => simp [save_campaign_assets, h, hq]

/-- An image generator that succeeds with a fixed file name. -/
def okGen : ImageGen := fun _ dir => .ok (os_path_join dir "generated_image.png")

/-- Witness for C6: the amended law applied at a succeeding generator. -/
theorem save_campaign_assets_witness :
    save_campaign_assets okGen "Outputs/Glow" assetW = Except.ok
      { tagline := "Outputs/Glow/tagline.txt"
        story := "Outputs/Glow/story.txt"
        image := "Outputs/Glow/generated_image.png"
        quality_check := none } :=
  (save_campaign_assets_law okGen "Outputs/Glow" assetW).2
    "Outputs/Glow/generated_image.png" rfl

/-! ### Python dynamic values, for the tail of run_campaign_flow -/

/-- A Python value, as far as the flow tail needs to distinguish shapes. -/
inductive PyVal where
  | str (s : String)
  | intv (n : Int)
  | listv (l : List PyVal)
  | dictv (d : List (String × PyVal))
  | nonev

/-- A raised Python exception: its type name and message. -/
structure PyExc where
  kind : String
  msg : String
deriving DecidableEq, Repr

/-- Python v.get(key, default): defined on dicts; on any other value the
attribute lookup of .get raises AttributeError. -/
def pyDictGet (v : PyVal) (key : String) (default : PyVal) :
    Except PyExc PyVal :=
  match v with
  | .dictv d => .ok (((d.find? (fun p => p.1 == key)).map Prod.snd).getD default)
  | .listv _ => .error ⟨"AttributeError", "list object has no attribute get"⟩
  | .str _ => .error ⟨"AttributeError", "str object has no attribute get"⟩
  | .intv _ => .error ⟨"AttributeError", "int object has no attribute get"⟩
  | .nonev => .error ⟨"AttributeError", "NoneType object has no attribute get"⟩

/-- Python len(v) for the values that have one. -/
def pyLen : PyVal → Except PyExc Nat
  | .listv l => .ok l.length
  | .dictv d => .ok d.length
  | .str s => .ok s.length
  | _ => .error ⟨"TypeError", "object has no len"⟩

/-- A CampaignFlowError as raised by the outer except-clause of
run_campaign_flow (details reduced to the recorded error_type). -/
structure CampaignFlowErrorM where
  message : String
  step : String
  error_type : String
deriving DecidableEq, Repr

/-- generate_campaign (orchestrator.py) returns the Python list named
results, built by one append per campaign processed. -/
def generate_campaign_return (results : List PyVal) : PyVal := .listv results

/-- The tail of run_campaign_flow (run_campaign_flow.py) from the point where
generate_campaign has returned: the progress update evaluates
len(campaign_results.get("assets", [])), then the results dict is built and
returned; any non-CampaignFlowError exception is wrapped by the outer
except-clause into CampaignFlowError with the current step ad_generation and
the exception type name.  The flow_metrics entry (wall-clock durations) is
elided from the returned dict. -/
def flowAdGenTail (research_results marketing_results campaign_results : PyVal) :
    Except CampaignFlowErrorM PyVal :=
  match (pyDictGet campaign_results "assets" (.listv [])).bind pyLen with
  | .error e => .error ⟨"Unexpected error: " ++ e.msg, "ad_generation", e.kind⟩
  | .ok _ =>
    .ok (.dictv [("research_results", research_results),
      ("marketing_results", marketing_results),
      ("campaign_results", campaign_results)])

/-- C3: whenever generate_campaign returns a list of campaign results, the
flow tail raises a CampaignFlowError wrapping the AttributeError from
calling .get on a list, and never returns the results dictionary. -/
theorem flow_raises_after_adgen (research_results marketing_results : PyVal)
    (l : List PyVal) :
    flowAdGenTail research_results marketing_results
        (generate_campaign_return l)
      = Except.error ⟨"Unexpected error: list object has no attribute get",
          "ad_generation", "AttributeError"⟩ ∧
    ∀ res, flowAdGenTail research_results marketing_results
        (generate_campaign_return l) ≠ Except.ok res := by
  refine ⟨rfl, ?_⟩
  intro res h
  rw [show flowAdGenTail research_results marketing_results
      (generate_campaign_return l)
    = Except.error ⟨"Unexpected error: list object has no attribute get",
        "ad_generation", "AttributeError"⟩ from rfl] at h
  exact Except.noConfusion h

/-! ### Validators (run_campaign_flow.py)

validate_campaign_data and validate_research_data share one shape: check the
required keys are present, then fail on the first required field whose value
is falsy or whose stripped length is below the threshold; return True. -/

def requiredCampaignFields : List String :=
  ["campaign_name", "core_message", "visual_theme_description",
   "key_emotional_appeal"]

def requiredResearchFields : List String :=
  ["company_summary", "market_analysis", "competitor_analysis"]

structure ValidationErrorM where
  message : String
  step : String
deriving DecidableEq, Repr

def lookupField (d : List (String × String)) (f : String) : Option String :=
  (d.find? (fun p => p.1 == f)).map Prod.snd

/-- The per-field content test: not campaign[field] or
len(campaign[field].strip()) < minLen. -/
def contentBad (minLen : Nat) (v : String) : Bool :=
  v == "" || (pyStrip v.data).length < minLen

def validateFields (required : List String) (minLen : Nat) (step : String)
    (d : List (String × String)) : Except ValidationErrorM Bool :=
  if required.all (fun f => (lookupField d f).isSome) then
    match required.find?
        (fun f => contentBad minLen ((lookupField d f).getD "")) with
    | some f => .error ⟨"Insufficient content in " ++ f, step⟩
    | none => .ok true
  else .error ⟨"Missing required fields", step⟩

def validate_campaign_data (d : List (String × String)) :
    Except ValidationErrorM Bool :=
  validateFields requiredCampaignFields 10 "campaign" d

def validate_research_data (d : List (String × String)) :
    Except ValidationErrorM Bool :=
  validateFields requiredResearchFields 50 "research" d

theorem contentBad_iff {minLen : Nat} (hmin : 0 < minLen) (v : String) :
    contentBad minLen v = true ↔ (pyStrip v.data).length < minLen := by
  unfold contentBad
  by_cases hv : v = ""
  · subst hv
    constructor
    · intro _
      exact hmin
    · intro _
      rfl
  · have : (v == "") = false := by
      exact beq_false_of_ne hv
    simp [this]

theorem validateFields_error_iff (required : List String) {minLen : Nat}
    (hmin : 0 < minLen) (step : String) (d : List (String × String)) :
    (validateFields required minLen step d).isOk = false ↔
      ∃ f ∈ required, lookupField d f = none ∨
        (pyStrip ((lookupField d f).getD "").data).length < minLen := by
  unfold validateFields
  by_cases hall : required.all (fun f => (lookupField d f).isSome)
  · rw [if_pos hall]
    cases hfind : required.find?
        (fun f => contentBad minLen ((lookupField d f).getD "")) with
    | some f =>
      simp only [Except.isOk, Except.toBool]
      constructor
      · intro _
        refine ⟨f, List.mem_of_find?_eq_some hfind, Or.inr ?_⟩
        have hpf : contentBad minLen ((lookupField d f).getD "") = true := by
          have := List.find?_some hfind
          simpa using this
        exact (contentBad_iff hmin _).mp hpf
      · intro _
        trivial
    | none =>
      simp only [Except.isOk, Except.toBool]
      constructor
      · intro h
        exact absurd h (by simp)
      · rintro ⟨f, hf, hcase⟩
        exfalso
        rcases hcase with hnone | hlt
        · have := List.all_eq_true.mp hall f hf
          rw [hnone] at this
          simp at this
        · have hbad : contentBad minLen ((lookupField d f).getD "") = true :=
            (contentBad_iff hmin _).mpr hlt
          have := List.find?_eq_none.mp hfind f hf
          exact absurd hbad this
  · rw [if_neg hall]
    simp only [Except.isOk, Except.toBool]
    constructor
    · intro _
      have : ∃ f ∈ required, ¬ ((lookupField d f).isSome = true) := by
        by_contra hcon
        push_neg at hcon
        exact hall (List.all_eq_true.mpr hcon)
      obtain ⟨f, hf, hns⟩ := this
      refine ⟨f, hf, Or.inl ?_⟩
      cases hl : lookupField d f with
      | none => rfl
      | some v =>
        rw [hl] at hns
        simp at hns
    · intro _
      trivial

/-! ### The field regexes of parse_campaign_ideas

Every field pattern in the source has the shape
LABELS(.+?)(?=STOPS|end-of-text) with re.DOTALL: an ordered alternation of
literal labels (one of them possibly containing an optional whitespace-run
group, e.g. Visual Theme(?:\s*Description)?:), a non-greedy capture of at
least one character, and a lookahead stopping at the first literal stop or
the end.  The search finds the leftmost position where a label matches with
at least one character remaining, and the capture runs to the first stop
occurrence after at least one captured character. -/

/-- One alternative of a label alternation: a literal, or a literal followed
by a whitespace run and a second literal (for the optional \s*-groups, whose
second literal starts with a non-whitespace character, so the greedy run is
exactly the maximal whitespace run). -/
inductive LabelPat where
  | lit (l : List Char)
  | wsMid (base mid : List Char)

/-- Drop a literal from the front, when it is a prefix. -/
def dropLit (lit : List Char) (s : List Char) : Option (List Char) :=
  if lit.isPrefixOf s then some (s.drop lit.length) else none

/-- Remainder of the text after a label alternative matched at its front. -/
def matchLabel : LabelPat → List Char → Option (List Char)
  | .lit l, s => dropLit l s
  | .wsMid b m, s =>
    match dropLit b s with
    | none => none
    | some r => dropLit m (r.dropWhile pyIsSpace)

/-- Scan left to right for the first position where some alternative (tried
in order) matches with a non-empty remainder (needed by the .+? capture);
return that remainder. -/
def findLab (labels : List LabelPat) : List Char → Option (List Char)
  | [] => none
  | c :: rest =>
    match labels.findSome? (fun p =>
      match matchLabel p (c :: rest) with
      | some r => if r.isEmpty then none else some r
      | none => none) with
    | some r => some r
    | none => findLab labels rest

/-- Take characters until some stop literal matches at the current position. -/
def captureUpTo (stops : List (List Char)) : List Char → List Char
  | [] => []
  | c :: rest =>
    if stops.any (fun st => st.isPrefixOf (c :: rest)) then []
    else c :: captureUpTo stops rest

/-- The non-greedy (.+?) capture: at least one character, then up to the
first stop occurrence or the end of the text. -/
def captureAfter (stops : List (List Char)) : List Char → List Char
  | [] => []
  | c :: rest => c :: captureUpTo stops rest

/-- re.search of one field pattern followed by group(1).strip(). -/
def extractField (labels : List LabelPat) (stops : List (List Char))
    (sec : List Char) : Option String :=
  (findLab labels sec).map (fun rest => ⟨pyStrip (captureAfter stops rest)⟩)

/-! ### re.split and section filtering -/

/-- re.split on an ordered alternation of literal delimiters: pieces between
delimiter occurrences, empties kept.  The fuel equals the length of the text,
which every recursive call strictly decreases, so the fuel-exhaustion arm is
reached only with an empty remainder. -/
def reSplitAux (delims : List (List Char)) :
    Nat → List Char → List Char → List (List Char)
  | 0, cur, rest => [cur.reverse ++ rest]
  | _ + 1, cur, [] => [cur.reverse]
  | fuel + 1, cur, c :: rest =>
    match delims.find? (fun d => d.isPrefixOf (c :: rest)) with
    | some d => cur.reverse :: reSplitAux delims fuel [] (rest.drop (d.length - 1))
    | none => reSplitAux delims fuel (c :: cur) rest

def reSplit (delims : List (List Char)) (s : List Char) : List (List Char) :=
  reSplitAux delims s.length [] s

/-- The campaign-boundary delimiters of re.split in parse_campaign_ideas. -/
def campaignDelims : List (List Char) :=
  ["### Campaign ".data, "## Campaign ".data]

/-! ### parse_campaign_ideas (run_campaign_flow.py) -/

/-- Success-metrics extraction: re.search of
Success Metrics:(.+?)(?=Campaign |end), stripped, split on newlines, each
entry stripped, empties dropped. -/
def extractMetrics (s : List Char) : List String :=
  match findLab [.lit "Success Metrics:".data] s with
  | none => []
  | some rest =>
    let metrics_text := pyStrip (captureAfter ["Campaign ".data] rest)
    (((pySplitChar '\n' metrics_text).map pyStrip).filter
      (fun m => !m.isEmpty)).map (fun m => (⟨m⟩ : String))

/-- The campaign dict built for section number i: each field from its
pattern, campaign_name defaulting to "Campaign i", the rest to "";
prompt_suggestions filled from core message, visual theme and social media
(the key product_focused is never written). -/
def buildCampaign (i : Nat) (success_metrics : List String)
    (sec : List Char) : CampaignIdea :=
  let campaign_name := extractField
    [.lit "Campaign Name:".data, .lit "Name:".data]
    ["Core Message:".data] sec
  let core_message := extractField [.lit "Core Message:".data]
    ["Visual Theme Description:".data, "Visual Theme:".data] sec
  let visual_theme := extractField
    [.wsMid "Visual Theme".data "Description:".data, .lit "Visual Theme:".data]
    ["Key Emotional Appeal:".data, "Emotional Appeal:".data] sec
  let emotional_appeal := extractField
    [.lit "Key Emotional Appeal:".data, .lit "Emotional Appeal:".data]
    ["Social Media Focus:".data, "Social Media:".data] sec
  let social_media := extractField
    [.wsMid "Social Media".data "Focus:".data, .lit "Social Media:".data]
    ["Campaign Timeline:".data, "Timeline:".data] sec
  let timeline := extractField
    [.lit "Campaign Timeline:".data, .lit "Timeline:".data]
    ["Budget Allocation:".data, "Budget:".data] sec
  let budget := extractField
    [.wsMid "Budget".data "Allocation:".data, .lit "Budget:".data]
    ["Success Metrics:".data] sec
  { campaign_name := campaign_name.getD ("Campaign " ++ toString i)
    core_message := core_message.getD ""
    visual_theme_description := visual_theme.getD ""
    key_emotional_appeal := emotional_appeal.getD ""
    campaign_timeline := timeline.getD ""
    budget_allocation := budget.getD ""
    success_metrics := success_metrics
    prompt_suggestions :=
      { brand_focused := some (core_message.getD "")
        visual_focused := some (visual_theme.getD "")
        social_media := some (social_media.getD "") } }

/-- The four required fields plus the other string fields of the campaign
dict (its two non-string entries, success_metrics and prompt_suggestions,
are never read by the validator). -/
def campaignToDict (c : CampaignIdea) : List (String × String) :=
  [("campaign_name", c.campaign_name), ("core_message", c.core_message),
   ("visual_theme_description", c.visual_theme_description),
   ("key_emotional_appeal", c.key_emotional_appeal),
   ("campaign_timeline", c.campaign_timeline),
   ("budget_allocation", c.budget_allocation)]

/-- Whether validate_campaign_data accepts the campaign (the per-campaign
try block appends on success and continues on ValidationError). -/
def campaignValid (c : CampaignIdea) : Bool :=
  (validate_campaign_data (campaignToDict c)).isOk

/-- The for-loop of parse_campaign_ideas over enumerate(campaign_sections, 1):
keep each section's campaign when it validates, discard it otherwise. -/
def parseLoop (metrics : List String) : Nat → List (List Char) → List CampaignIdea
  | _, [] => []
  | i, sec :: rest =>
    if campaignValid (buildCampaign i metrics sec) then
      buildCampaign i metrics sec :: parseLoop metrics (i + 1) rest
    else parseLoop metrics (i + 1) rest

/-- campaign_sections: re.split on the campaign delimiters, then drop
sections whose strip is empty. -/
def sectionsOf (s : String) : List (List Char) :=
  (reSplit campaignDelims s.data).filter (fun t => !(pyStrip t).isEmpty)

def parsedCampaignsOf (s : String) : List CampaignIdea :=
  parseLoop (extractMetrics s.data) 1 (sectionsOf s)

/-- The deterministic fallback campaign of parse_campaign_ideas. -/
def fallbackCampaign : CampaignIdea :=
  { campaign_name := "Brand Awareness Campaign"
    core_message := "Highlighting unique value proposition"
    visual_theme_description :=
      "Clean, professional design that reflects brand identity"
    key_emotional_appeal := "Trust and reliability"
    campaign_timeline := "Q1 2024"
    budget_allocation := "Standard allocation across channels"
    success_metrics := ["Increase brand awareness", "Drive engagement"]
    prompt_suggestions :=
      { brand_focused := some "Showcasing brand values and mission"
        visual_focused := some "Professional and trustworthy imagery"
        social_media := some "Engaging content across key platforms" } }

inductive FlowErr where
  | parsing (message : String)
  | validation (message : String)
deriving DecidableEq, Repr

/-- parse_campaign_ideas: raise ParsingError on empty or whitespace-only
input; extract metrics; split into sections and raise ParsingError if none
remain after the strip filter; run the per-section loop; when it kept no
campaign, validate and return the fallback campaign alone. -/
def parse_campaign_ideas (marketing_results : String) :
    Except FlowErr (List CampaignIdea) :=
  if (pyStrip marketing_results.data).isEmpty then
    .error (.parsing "Marketing results are empty")
  else if (sectionsOf marketing_results).isEmpty then
    .error (.parsing "No campaign sections found")
  else if (parsedCampaignsOf marketing_results).isEmpty then
    match validate_campaign_data (campaignToDict fallbackCampaign) with
    | .error e => .error (.validation e.message)
    | .ok _ => .ok [fallbackCampaign]
  else .ok (parsedCampaignsOf marketing_results)

theorem parseLoop_eq_filterMap (metrics : List String) (secs : List (List Char)) :
    ∀ n : Nat,
      parseLoop metrics n secs = (secs.enumFrom n).filterMap
        (fun p => if campaignValid (buildCampaign p.1 metrics p.2)
          then some (buildCampaign p.1 metrics p.2) else none) := by
  induction secs with
  | nil => intro n; rfl
  | cons sec rest ih =>
    intro n
    simp only [parseLoop, List.enumFrom, List.filterMap_cons]
    by_cases hv : campaignValid (buildCampaign n metrics sec)
    · simp only [hv, if_true, ih]
    · simp only [hv, if_false, ih, Bool.false_eq_true]

/-- C8: a validator raises exactly on the documented thresholds — the
campaign validator errors iff a required campaign field is missing or its
stripped content is shorter than 10 characters, the research validator
likewise with threshold 50 — and the parsing loop is the filter of the
enumerated sections by per-campaign validity: a campaign failing validation
is discarded alone while every other validating campaign of the batch is
kept, in order. -/
theorem validation_thresholds_and_recovery :
    (∀ d : List (String × String),
      (validate_campaign_data d).isOk = false ↔
        ∃ f ∈ requiredCampaignFields, lookupField d f = none ∨
          (pyStrip ((lookupField d f).getD "").data).length < 10) ∧
    (∀ d : List (String × String),
      (validate_research_data d).isOk = false ↔
        ∃ f ∈ requiredResearchFields, lookupField d f = none ∨
          (pyStrip ((lookupField d f).getD "").data).length < 50) ∧
    (∀ (metrics : List String) (n : Nat) (secs : List (List Char)),
      parseLoop metrics n secs = (secs.enumFrom n).filterMap
        (fun p => if campaignValid (buildCampaign p.1 metrics p.2)
          then some (buildCampaign p.1 metrics p.2) else none)) :=
  ⟨fun d => validateFields_error_iff requiredCampaignFields (by decide)
      "campaign" d,
   fun d => validateFields_error_iff requiredResearchFields (by decide)
      "research" d,
   fun metrics n secs => parseLoop_eq_filterMap metrics secs n⟩

/-- Witness for C8: a campaign dict with a too-short field is rejected, a
dict missing a required field is rejected, and a batch with one invalid and
one valid section keeps exactly the valid campaign. -/
theorem validation_thresholds_witness :
    (validate_campaign_data [("campaign_name", "short"),
      ("core_message", "a perfectly long message"),
      ("visual_theme_description", "a perfectly long theme"),
      ("key_emotional_appeal", "a perfectly long appeal")]).isOk = false ∧
    (validate_research_data []).isOk = false :=
  ⟨(validation_thresholds_and_recovery.1 _).mpr
      ⟨"campaign_name", by decide, Or.inr (by decide)⟩,
   (validation_thresholds_and_recovery.2.1 _).mpr
      ⟨"company_summary", by decide, Or.inl (by decide)⟩⟩

/-- CX-C2: on the empty marketing-results string, parse_campaign_ideas
raises ParsingError instead of returning the fallback CampaignIdea. -/
theorem parse_empty_raises_counterexample :
    parse_campaign_ideas ""
      = Except.error (FlowErr.parsing "Marketing results are empty") := rfl

/-- C2 (amended): parse_campaign_ideas raises ParsingError on empty or
whitespace-only input, and when no campaign section survives the split and
strip filter; in every remaining case it returns a non-empty list, and when
the per-section loop keeps zero campaigns it returns exactly the single
fallback CampaignIdea. -/
theorem parse_campaign_ideas_fallback_law (s : String) :
    ((pyStrip s.data).isEmpty = true →
      parse_campaign_ideas s
        = Except.error (FlowErr.parsing "Marketing results are empty")) ∧
    ((pyStrip s.data).isEmpty = false → (sectionsOf s).isEmpty = true →
      parse_campaign_ideas s
        = Except.error (FlowErr.parsing "No campaign sections found")) ∧
    ((pyStrip s.data).isEmpty = false → (sectionsOf s).isEmpty = false →
      (parsedCampaignsOf s).isEmpty = true →
      parse_campaign_ideas s = Except.ok [fallbackCampaign]) ∧
    (∀ l, parse_campaign_ideas s = Except.ok l → l ≠ []) := by
  have hfb : validate_campaign_data (campaignToDict fallbackCampaign)
      = Except.ok true := rfl
  refine ⟨?_, ?_, ?_, ?_⟩
  · intro h1
    simp [parse_campaign_ideas, h1]
  · intro h1 h2
    simp [parse_campaign_ideas, h1, h2]
  · intro h1 h2 h3
    simp [parse_campaign_ideas, h1, h2, h3, hfb]
  · intro l hl
    by_cases h1 : (pyStrip s.data).isEmpty
    · simp [parse_campaign_ideas, h1] at hl
    · by_cases h2 : (sectionsOf s).isEmpty
      · simp [parse_campaign_ideas, h1, h2] at hl
      · by_cases h3 : (parsedCampaignsOf s).isEmpty
        · have := by
            simpa [parse_campaign_ideas, h1, h2, h3, hfb] using hl
          rw [← this]
          simp
        · have hl2 : parsedCampaignsOf s = l := by
            simpa [parse_campaign_ideas, h1, h2, h3] using hl
          rw [← hl2]
          exact fun hc => h3 (by simp [hc])

/-- A marketing-results string with one section whose fields are all too
short, so that zero campaigns validate. -/
def invalidSectionInput : String := "### Campaign 1\nCampaign Name: X\n"

set_option maxRecDepth 40000 in
/-- Witness for C2: the amended law at a whitespace-only input and at an
input whose only section fails validation. -/
theorem parse_fallback_witness :
    parse_campaign_ideas "  \n "
      = Except.error (FlowErr.parsing "Marketing results are empty") ∧
    parse_campaign_ideas invalidSectionInput = Except.ok [fallbackCampaign] :=
  ⟨(parse_campaign_ideas_fallback_law "  \n ").1 (by decide),
   (parse_campaign_ideas_fallback_law invalidSectionInput).2.2.1
      (by decide) (by decide) (by decide)⟩

/-! ### Success metrics: newline-only split (C9) -/

theorem parseLoop_metrics_const (metrics : List String)
    (secs : List (List Char)) :
    ∀ (n : Nat) (c : CampaignIdea),
      c ∈ parseLoop metrics n secs → c.success_metrics = metrics := by
  induction secs with
  | nil =>
    intro n c hc
    simp [parseLoop] at hc
  | cons sec rest ih =>
    intro n c hc
    simp only [parseLoop] at hc
    by_cases hv : campaignValid (buildCampaign n metrics sec)
    · rw [if_pos hv] at hc
      rcases List.mem_cons.mp hc with h | h
      · subst h
        rfl
      · exact ih (n + 1) c h
    · rw [if_neg hv] at hc
      exact ih (n + 1) c hc

/-- C9 (amended): every campaign kept by the parsing loop carries exactly
the success-metrics list obtained by splitting the Success Metrics section
text on newlines only — not on commas — trimming each entry and dropping
empties; a single line of comma-separated metrics therefore stays one entry. -/
theorem success_metrics_newline_only (s : String) (c : CampaignIdea)
    (hmem : c ∈ parsedCampaignsOf s) :
    c.success_metrics = extractMetrics s.data :=
  parseLoop_metrics_const (extractMetrics s.data) (sectionsOf s) 1 c hmem

/-- Like pySplitChar, splitting on any of several delimiter characters. -/
def splitOnAny (cs : List Char) : List Char → List (List Char)
  | [] => [[]]
  | x :: xs =>
    let r := splitOnAny cs xs
    if cs.contains x then [] :: r
    else
      match r with
      | h :: t => (x :: h) :: t
      | [] => [[x]]

/-- Modelled from the spec claim wording: the Success Metrics section parsed
as a comma- or newline-delimited list, trimmed, empty entries dropped. -/
def specMetricsSplit (s : String) : List String :=
  match findLab [.lit "Success Metrics:".data] s.data with
  | none => []
  | some rest =>
    let t := pyStrip (captureAfter ["Campaign ".data] rest)
    (((splitOnAny [',', '\n'] t).map pyStrip).filter
      (fun m => !m.isEmpty)).map (fun m => (⟨m⟩ : String))

/-- A marketing-results text with a Success Metrics section holding one
comma-separated line, and one valid campaign section. -/
def metricsInput : String :=
  "### Campaign 1\nCampaign Name: Awareness Blitz 2024\nCore Message: Buy our great products today\nVisual Theme: Bright minimalist colors\nKey Emotional Appeal: Excitement and delight\nSuccess Metrics: Raise awareness, drive engagement"

set_option maxRecDepth 40000 in
/-- CX-C9: on metricsInput the parser returns one campaign whose
success-metrics list keeps the comma-separated line as a single entry,
whereas the comma-and-newline split of the claim yields two entries. -/
theorem metrics_comma_counterexample :
    (parse_campaign_ideas metricsInput).map
        (fun l => l.map (fun c => c.success_metrics))
      = Except.ok [[("Raise awareness, drive engagement" : String)]] ∧
    specMetricsSplit metricsInput
      = ["Raise awareness", "drive engagement"] := by
  constructor
  · rfl
  · rfl

set_option maxRecDepth 40000 in
/-- Witness for C9: the amended law at the concrete input. -/
theorem success_metrics_newline_witness :
    ((parsedCampaignsOf metricsInput).head (by decide)).success_metrics
      = extractMetrics metricsInput.data :=
  success_metrics_newline_only metricsInput _ (List.head_mem (by decide))

end AdVocate
